import Mathlib

set_option maxRecDepth 4000

/-!
Verification of the frame ingestion & consolidation pipeline of the
camsim-cctv repository, as a shallow embedding in Lean.

The repository carries two iterations of the processor package:
* `internal/processor/processor.go` (called "internal" below): `createVideo`
  receives the globbed frame list unsorted, fails on any encoder error, and
  `Stop` closes the two channels with no final consolidation pass;
* the updated iteration bundled in the repository (called "updated" below,
  from the document holding `extractFrameNumber`): `createVideo` sorts frames
  numerically, accepts a non-empty output despite an encoder error, and `Stop`
  runs one `consolidateFrames` pass before closing the channels.

`ProcessFrame` and the body of the `processFrames` worker loop are textually
identical in the two iterations, so a single embedding covers both.

Operating-system interactions are embedded as explicit data:
* the per-camera frame store is a list of `FrameFile` records (camera
  directory, file name, modification time); `filepath.Glob` over
  `frame_*.jpg` is embedded as a filter by the glob pattern followed by a
  lexicographic sort, since Go's `filepath.Glob` returns its matches sorted
  byte-lexicographically;
* the encoder subprocess outcome and the subsequent `os.Stat` of the output
  artifact are oracle inputs (`runErr : Bool`, `outSize : Option Nat`,
  `none` standing for a missing file);
* channels are embedded by their observable contents: a bounded queue is a
  list with a capacity, the capacity-1 consolidation channel is a `Bool`
  (signal pending or not), and `close` on a channel is a fallible operation
  that panics (errors) on an already-closed channel.
-/

/-- Bytes of a frame payload are abstracted as `List Nat`; the frame record
mirrors `FrameData` of processor.go. -/
structure FrameData where
  cameraID : String
  data : List Nat
  timestamp : Nat
  number : Nat
deriving DecidableEq, Repr

/-- One persisted frame file: the camera directory it lives in, its base
name, and its modification time (seconds, abstract). `os.Rename` preserves
the modification time, and nothing in the program ever reads it. -/
structure FrameFile where
  camera : String
  name : String
  mtime : Nat
deriving DecidableEq, Repr

/-- Byte-lexicographic strict order on character lists, as Go's `<` on
strings compares byte sequences (identical for the ASCII file names the
system produces). -/
def charListLtb : List Char → List Char → Bool
  | [], [] => false
  | [], _ :: _ => true
  | _ :: _, [] => false
  | a :: as, b :: bs =>
    if a.toNat < b.toNat then true
    else if b.toNat < a.toNat then false
    else charListLtb as bs

/-- Strict byte-lexicographic order on strings (Go `sort.Strings` less). -/
def strLtb (a b : String) : Bool := charListLtb a.data b.data

/-- Go `strings.Split` on a single separator character: splits at every
occurrence, keeping empty components. -/
def splitOnChar (sep : Char) : List Char → List (List Char)
  | [] => [[]]
  | c :: cs =>
    let r := splitOnChar sep cs
    if c = sep then [] :: r
    else
      match r with
      | h :: t => (c :: h) :: t
      | [] => [[c]]

/-- Decimal value of a digit list (used only on all-digit inputs). -/
def digitsToNat (cs : List Char) : Nat :=
  cs.foldl (fun acc c => acc * 10 + (c.toNat - 48)) 0

/-- Go `strconv.Atoi` restricted to the unsigned numerals the file names
carry: succeeds exactly on a non-empty all-digit string. (Signs and 64-bit
overflow are not modelled; the pipeline only ever parses digit fields.) -/
def parseAtoiL (cs : List Char) : Option Nat :=
  if cs ≠ [] ∧ cs.all (fun c => c.isDigit) then some (digitsToNat cs) else none

/-- Go `filepath.Base` in the slash-separated world: empty path gives ".",
trailing slashes are trimmed, then everything up to the last slash is
dropped; an all-slash path gives "/". -/
def baseName (s : String) : String :=
  if s.data = [] then "."
  else
    let t := (s.data.reverse.dropWhile (fun c => c = '/')).reverse
    if t = [] then "/"
    else String.mk ((t.reverse.takeWhile (fun c => c ≠ '/')).reverse)

/-- `extractFrameNumber` of the updated iteration: takes the base name,
splits on underscores, and parses field 1 with `Atoi`; any failure yields 0. -/
def extractFrameNumber (filename : String) : Nat :=
  let base := baseName filename
  let parts := splitOnChar '_' base.data
  match parts.get? 1 with
  | some numStr =>
    match parseAtoiL numStr with
    | some n => n
    | none => 0
  | none => 0

/-- Whether a file name matches the glob pattern `frame_*.jpg` (Go
`path.Match` semantics: `*` matches any run of non-separator characters). -/
def matchesFramePattern (name : String) : Bool :=
  let cs := name.data
  decide (10 ≤ cs.length) && (cs.take 6 == "frame_".data)
    && (cs.drop (cs.length - 4) == ".jpg".data)
    && ((cs.drop 6).take (cs.length - 10)).all (fun c => c != '/')

/-- The relation `sort.Strings` establishes (ascending byte order). -/
def strOrder (a b : String) : Prop := strLtb a b = true

instance : DecidableRel strOrder := fun a b => instDecidableEqBool (strLtb a b) true

/-- `filepath.Glob(cameraDir, "frame_*.jpg")`: the names of the camera's
files matching the pattern, sorted lexicographically (Go sorts the matches;
all names share the camera-directory prefix, so comparing base names agrees
with comparing the full paths Go compares). -/
def globFrames (store : List FrameFile) (cam : String) : List String :=
  List.insertionSort strOrder
    ((store.filter (fun e => e.camera == cam && matchesFramePattern e.name)).map (fun e => e.name))

/-- The comparison `createVideo` of the updated iteration hands to
`sort.Slice`: order frames by parsed frame number. -/
def frameNumOrder (a b : String) : Prop := extractFrameNumber a ≤ extractFrameNumber b

instance : DecidableRel frameNumOrder := fun a b =>
  Nat.decLe (extractFrameNumber a) (extractFrameNumber b)

instance : IsTotal String frameNumOrder :=
  ⟨fun a b => Nat.le_total (extractFrameNumber a) (extractFrameNumber b)⟩

instance : IsTrans String frameNumOrder :=
  ⟨fun _ _ _ => Nat.le_trans⟩

/-- The in-place `sort.Slice(frames, by extractFrameNumber)` of the updated
`createVideo`, embedded as a sort producing a permutation ordered by the
comparator (Go's `sort.Slice` contract; ties between equal keys are not
further specified by Go, and no property below depends on tie order). -/
def createVideoSort (frames : List String) : List String :=
  List.insertionSort frameNumOrder frames

/-- The frame list the internal iteration's pass hands to `createVideo` for
one camera: the glob result as-is — `createVideo` there never reorders, the
playlist is written in the given order. -/
def consolidateEncoderInput (store : List FrameFile) (cam : String) : List String :=
  globFrames store cam

/-- The frame list the updated iteration's pass hands to the encoder for one
camera: `consolidateFrames` passes `frames[:MaxFrames]` of the glob result,
and `createVideo` then sorts that chunk numerically before writing the
playlist. -/
def consolidateEncoderInputUpdated (store : List FrameFile) (cam : String) (maxFrames : Nat) :
    List String :=
  createVideoSort ((globFrames store cam).take maxFrames)

/-! ## Ingestion queue: `ProcessFrame` (identical in both iterations) -/

/-- Observable state touched by `ProcessFrame`: the `processingMap` of active
cameras (a `sync.Map` used as a set: `Store(id, true)`), and the buffered
`frameChan` with its capacity. A `select` send with a `default` branch on a
buffered channel succeeds exactly when the buffer holds fewer items than its
capacity. -/
structure IngestState where
  active : List String
  queue : List FrameData
  cap : Nat
deriving DecidableEq, Repr

/-- `sync.Map.Store(cameraID, true)` on a map used as a set. -/
def insertCam (cam : String) (active : List String) : List String :=
  if cam ∈ active then active else active ++ [cam]

/-- `ProcessFrame`: rejects an empty camera id, then marks the camera active,
then attempts the non-blocking enqueue; a full queue yields an immediate
error with the frame dropped. Returns the error (if any) and the new state.
The payload is never inspected here. -/
def ProcessFrame (st : IngestState) (frame : FrameData) : Option String × IngestState :=
  if frame.cameraID = "" then
    (some "camera ID is required", st)
  else
    let st1 : IngestState := { st with active := insertCam frame.cameraID st.active }
    if st1.queue.length < st1.cap then
      (none, { st1 with queue := st1.queue ++ [frame] })
    else
      (some "frame processing queue full", st1)

/-! ## Persistence worker: one `processFrames` loop body (identical in both
iterations) -/

/-- Capacity of `consolidateChan` as created by `NewFrameProcessor`
(`make(chan struct{}, 1)`). -/
def consolidateChanCapacity : Nat := 1

/-- The count-trigger threshold in `processFrames` (`count%30 == 0`); the
literal 30 in the source, not drawn from the configuration. -/
def consolidationBatchThreshold : Nat := 30

/-- State of the worker the loop body touches: the per-camera `frameCount`
map and the capacity-1 consolidation channel, embedded as a pending flag. -/
structure WorkerState where
  counts : List (String × Nat)
  pending : Bool
deriving DecidableEq, Repr

/-- Read of the `frameCount` map (missing key reads as 0, as in Go). -/
def getCount (counts : List (String × Nat)) (cam : String) : Nat :=
  match counts.lookup cam with
  | some n => n
  | none => 0

/-- `fp.frameCount[frame.CameraID]++` on the map. -/
def bumpCount (counts : List (String × Nat)) (cam : String) : List (String × Nat) :=
  match counts.lookup cam with
  | some n => counts.map (fun p => if p.1 = cam then (p.1, n + 1) else p)
  | none => counts ++ [(cam, 1)]

/-- One `processFrames` iteration after `saveFrame` returned: on a failed
save only the error metric moves; on success the camera's counter is bumped
and, when the new count is a multiple of 30, a non-blocking send is attempted
on the capacity-1 consolidation channel — if a signal is already pending the
`default` branch drops the send and the worker continues without error. -/
def processFramesStep (st : WorkerState) (cam : String) (saveOk : Bool) : WorkerState :=
  if saveOk then
    let counts1 := bumpCount st.counts cam
    let count := getCount counts1 cam
    if count % consolidationBatchThreshold == 0 then
      if st.pending then { counts := counts1, pending := st.pending }
      else { counts := counts1, pending := true }
    else { counts := counts1, pending := st.pending }
  else st

/-! ## Consolidation pass, internal iteration -/

/-- Body of the `processingMap.Range` callback of the internal iteration's
`consolidateFrames` for one camera, acting on the frame store: glob the
camera's `frame_*.jpg` files; an empty result skips the camera; `encOk`
abstracts the outcome of the whole `createVideo` call (directory creation and
the encoder subprocess); on failure the callback just logs and moves on; on
success, when `DeleteOriginals` is set, every globbed frame file is removed. -/
def consolidateCameraStep (store : List FrameFile) (cam : String) (encOk : Bool)
    (deleteOriginals : Bool) : List FrameFile :=
  let frames := globFrames store cam
  if frames = [] then store
  else if !encOk then store
  else if deleteOriginals then
    store.filter (fun e => !(e.camera == cam && frames.contains e.name))
  else store

/-- The internal iteration's `consolidateFrames`: one pass over every camera
in `processingMap` (in `Range` order), each camera handled by
`consolidateCameraStep`; an error in one camera's step never stops the
range (the callback always returns `true`). -/
def consolidateFrames (active : List String) (enc : String → Bool) (deleteOriginals : Bool)
    (store : List FrameFile) : List FrameFile :=
  active.foldl (fun st cam => consolidateCameraStep st cam (enc cam) deleteOriginals) store

/-- The internal pass again, also logging, per visited camera, the glob it
scanned (used to state that a pass scans every active camera's directory). -/
def consolidateFramesLogged (active : List String) (enc : String → Bool)
    (deleteOriginals : Bool) (store : List FrameFile) :
    List FrameFile × List (String × List String) :=
  active.foldl
    (fun st cam =>
      (consolidateCameraStep st.1 cam (enc cam) deleteOriginals,
       st.2 ++ [(cam, globFrames st.1 cam)]))
    (store, [])

/-! ## Consolidation pass, updated iteration -/

/-- Zero-padded rendering of `fmt.Sprintf("%05d", n)`. -/
def pad5 (n : Nat) : String :=
  let d := Nat.toDigits 10 n
  String.mk (List.replicate (5 - d.length) '0' ++ d)

/-- Name given to the i-th leftover frame when the updated pass renumbers the
remainder: `frame_%05d_<now>.jpg` with index `i+1` and the pass timestamp. -/
def renumberedName (i : Nat) (now : String) : String :=
  "frame_" ++ pad5 i ++ "_" ++ now ++ ".jpg"

/-- Configuration fields the updated pass reads. -/
structure PConfig where
  maxFrames : Nat
  deleteOriginals : Bool
deriving DecidableEq, Repr

/-- Body of the updated iteration's `consolidateFrames` range callback for
one camera: glob; skip the camera while it holds fewer than `MaxFrames`
frames; encode `frames[:MaxFrames]` (`encOk` abstracts `createVideo`'s
outcome; `createVideo` sorts that chunk in place, which permutes but does not
change the set of files later deleted); on success with `DeleteOriginals`
set, the chunk's files are removed and each remaining frame `frames[i]`
(i from `MaxFrames` on) is renamed to `frame_%05d_<now>.jpg` with index
starting at 1 — a rename changes the name, keeps camera and mtime. -/
def consolidateCameraStepUpdated (cfg : PConfig) (now : String) (store : List FrameFile)
    (cam : String) (encOk : Bool) : List FrameFile :=
  let frames := globFrames store cam
  if frames.length < cfg.maxFrames then store
  else if !encOk then store
  else if cfg.deleteOriginals then
    let chunk := frames.take cfg.maxFrames
    let rest := frames.drop cfg.maxFrames
    let renMap := rest.enum.map (fun p => (p.2, renumberedName (p.1 + 1) now))
    (store.filter (fun e => !(e.camera == cam && chunk.contains e.name))).map
      (fun e =>
        if e.camera == cam then
          match renMap.lookup e.name with
          | some newName => { e with name := newName }
          | none => e
        else e)
  else store

/-- The updated iteration's `consolidateFrames`: the same range over active
cameras, with the updated per-camera step. -/
def consolidateFramesUpdated (cfg : PConfig) (now : String) (active : List String)
    (enc : String → Bool) (store : List FrameFile) : List FrameFile :=
  active.foldl (fun st cam => consolidateCameraStepUpdated cfg now st cam (enc cam)) store

/-! ## `createVideo` success verification -/

/-- Outcome of one internal-iteration `createVideo` invocation, as a function
of the encoder subprocess outcome and the `os.Stat` of the output artifact
(`none`: missing file; `some n`: size-n file): any `cmd.Run()` error is
returned at once, otherwise the artifact must exist with non-zero size.
`true` means the invocation reports success. -/
def createVideoVerify (runErr : Bool) (outSize : Option Nat) : Bool :=
  if runErr then false
  else
    match outSize with
    | none => false
    | some n => decide (0 < n)

/-- Outcome of one updated-iteration `createVideo` invocation: on a
`cmd.Run()` error the output is stat'ed, and a present, non-empty artifact
turns the error into a logged warning and success; otherwise the error is
returned. On a clean exit the artifact must exist with non-zero size. -/
def createVideoVerifyUpdated (runErr : Bool) (outSize : Option Nat) : Bool :=
  if runErr then
    match outSize with
    | some n => decide (0 < n)
    | none => false
  else
    match outSize with
    | none => false
    | some n => decide (0 < n)

/-! ## Playlist construction -/

/-- One line of the concat playlist handed to the encoder: a file reference
carrying the (escaped) frame path, or a duration line carrying the literal
the source writes. -/
inductive PlaylistLine where
  | fileRef (path : List Char)
  | duration (secs : String)
deriving DecidableEq, Repr

/-- Whether a playlist line is a file reference. -/
def isFileRef : PlaylistLine → Bool
  | PlaylistLine.fileRef _ => true
  | PlaylistLine.duration _ => false

/-- The separator normalization both iterations apply to a frame path
(ReplaceAll of backslash by slash; the internal iteration's filepath.ToSlash
does the same). -/
def toSlashChars (cs : List Char) : List Char :=
  cs.map (fun c => if c == '\\' then '/' else c)

/-- The updated iteration's escaping of single quotes in a frame path: each
quote becomes the four-character sequence quote, backslash, quote, quote. -/
def escapeQuotes (cs : List Char) : List Char :=
  cs.flatMap (fun c => if c == '\'' then ['\'', '\\', '\'', '\''] else [c])

/-- Inverse reading of escapeQuotes (collapses every escape group back to
one quote); used to state that the escaping is lossless. -/
def unescapeQuotes : List Char → List Char
  | [] => []
  | c :: rest =>
    if c = '\'' then
      match h : rest with
      | '\\' :: '\'' :: '\'' :: rest2 => '\'' :: unescapeQuotes rest2
      | _ => c :: unescapeQuotes rest
    else c :: unescapeQuotes rest
termination_by cs => cs.length
decreasing_by
  · simp [h]
    omega
  · simp [h]
  · simp

/-- Path processing of the updated createVideo before a frame path enters
the playlist: normalize separators, then escape quotes. (filepath.Abs is
modelled as the identity — paths are taken as already resolved; the claims
below concern list structure and escaping, not working-directory
resolution.) -/
def ffmpegSafePath (cs : List Char) : List Char :=
  escapeQuotes (toSlashChars cs)

/-- Playlist of the updated createVideo for one chunk: per frame, in chunk
order, one file line with the escaped path and one duration line with the
literal 0.0333333333; then, for a non-empty chunk, the last frame's file
line once more (with no duration). -/
def playlistUpdated (frames : List (List Char)) : List PlaylistLine :=
  (frames.flatMap (fun f =>
    [PlaylistLine.fileRef (ffmpegSafePath f), PlaylistLine.duration "0.0333333333"])) ++
  (match frames.getLast? with
   | some f => [PlaylistLine.fileRef (ffmpegSafePath f)]
   | none => [])

/-- Playlist of the internal createVideo: per frame one file line with only
separator normalization (filepath.ToSlash, no quote escaping) and one
duration line with the literal 0.033333333; no duplicated final entry. -/
def playlistInternal (frames : List (List Char)) : List PlaylistLine :=
  frames.flatMap (fun f =>
    [PlaylistLine.fileRef (toSlashChars f), PlaylistLine.duration "0.033333333"])

/-! ## Lifecycle -/

/-- Go close on a channel: closing an already-closed channel panics, which
the embedding reports as an error. -/
def closeChan (alreadyClosed : Bool) : Except String Bool :=
  if alreadyClosed then Except.error "close of closed channel" else Except.ok true

/-- Observable server/processor lifecycle state for Server.Stop: whether the
sync.Once has fired and which of the three shared channels (shutdown, the
ingestion frameChan, the consolidateChan signal) are closed. -/
structure LifecycleState where
  stopped : Bool
  shutdownClosed : Bool
  frameClosed : Bool
  consClosed : Bool
deriving DecidableEq, Repr

/-- FrameProcessor.Stop of the internal iteration, restricted to its channel
effects: close frameChan, then close consolidateChan. -/
def procStopChans (frameClosed consClosed : Bool) : Except String (Bool × Bool) := do
  let f ← closeChan frameClosed
  let c ← closeChan consClosed
  Except.ok (f, c)

/-- Server.Stop: the whole body runs under s.shutdownOnce.Do, so a second
call is a no-op; the first call closes s.shutdown, calls the processor's
Stop (closing its two channels), and then only waits (the bounded wait has
no further observable effect on these resources). -/
def serverStop (st : LifecycleState) : Except String LifecycleState :=
  if st.stopped then Except.ok st
  else do
    let _sd ← closeChan st.shutdownClosed
    let _pc ← procStopChans st.frameClosed st.consClosed
    Except.ok { stopped := true, shutdownClosed := true, frameClosed := true, consClosed := true }

/-- Full processor state as far as the processor's own Stop can affect it:
the buffered ingestion queue, the persisted frame store on disk, the
active-camera map, and the closed flags of the two channels. -/
structure ProcFull where
  queue : List FrameData
  store : List FrameFile
  active : List String
  frameClosed : Bool
  consClosed : Bool
deriving DecidableEq, Repr

/-- The internal iteration's FrameProcessor.Stop: logs, closes frameChan,
closes consolidateChan. No consolidation pass runs and neither the queue
contents nor the disk store are touched. -/
def stopInternal (p : ProcFull) : ProcFull :=
  { p with frameClosed := true, consClosed := true }

/-- The updated iteration's FrameProcessor.Stop: first cleanup(), which runs
one ordinary consolidateFrames pass over the persisted store (the queue is
not drained by it), then closes the two channels. -/
def stopUpdated (cfg : PConfig) (now : String) (enc : String → Bool) (p : ProcFull) : ProcFull :=
  let afterCleanup :=
    { p with store := consolidateFramesUpdated cfg now p.active enc p.store }
  { afterCleanup with frameClosed := true, consClosed := true }

/-! ## Helper lemmas -/

/-- Membership in the glob result: exactly the names of the camera's
pattern-matching files. -/
theorem mem_globFrames {store : List FrameFile} {cam : String} {n : String} :
    n ∈ globFrames store cam ↔
      ∃ e, e ∈ store ∧ e.camera = cam ∧ matchesFramePattern e.name = true ∧ e.name = n := by
  unfold globFrames
  rw [(List.perm_insertionSort strOrder _).mem_iff, List.mem_map]
  constructor
  · rintro ⟨e, he, rfl⟩
    rw [List.mem_filter] at he
    obtain ⟨hs, hcond⟩ := he
    simp only [Bool.and_eq_true, beq_iff_eq] at hcond
    exact ⟨e, hs, hcond.1, hcond.2, rfl⟩
  · rintro ⟨e, hs, hc, hm, rfl⟩
    refine ⟨e, List.mem_filter.mpr ⟨hs, ?_⟩, rfl⟩
    simp [hc, hm]

/-- The internal per-camera step is a filter by "consumed by this pass". -/
theorem consolidateCameraStep_eq_filter (store : List FrameFile) (cam : String)
    (encOk del : Bool) :
    consolidateCameraStep store cam encOk del =
      store.filter
        (fun e => !(e.camera == cam && matchesFramePattern e.name && encOk && del)) := by
  unfold consolidateCameraStep
  by_cases hf : globFrames store cam = []
  · simp only [hf, if_pos rfl]
    symm
    apply List.filter_eq_self.mpr
    intro e he
    by_cases hc : e.camera = cam
    · by_cases hm : matchesFramePattern e.name = true
      · exfalso
        have : e.name ∈ globFrames store cam := mem_globFrames.mpr ⟨e, he, hc, hm, rfl⟩
        simp [hf] at this
      · simp [hm]
    · simp [hc]
  · rw [if_neg hf]
    cases encOk with
    | false =>
      symm
      simp only [Bool.not_false, if_pos rfl]
      apply List.filter_eq_self.mpr
      intro e _
      simp
    | true =>
      simp only [Bool.not_true, if_neg (by simp : ¬ (false : Bool) = true)]
      cases del with
      | false =>
        symm
        apply List.filter_eq_self.mpr
        intro e _
        simp
      | true =>
        apply List.filter_congr
        intro e he
        by_cases hc : e.camera = cam
        · by_cases hm : matchesFramePattern e.name = true
          · have hmem : e.name ∈ globFrames store cam := mem_globFrames.mpr ⟨e, he, hc, hm, rfl⟩
            simp [hc, hm, hmem]
          · have hnm : ¬ e.name ∈ globFrames store cam := by
              intro hmm
              obtain ⟨e2, _, _, hm2, hn2⟩ := mem_globFrames.mp hmm
              rw [hn2] at hm2
              exact hm (by exact hm2)
            simp [hc, hm, hnm]
        · have hb : (e.camera == cam) = false := beq_eq_false_iff_ne.mpr hc
          simp [hb]

/-- Skipped internal step: a failed createVideo leaves the store as-is. -/
theorem consolidateCameraStep_encFalse (store : List FrameFile) (cam : String) (del : Bool) :
    consolidateCameraStep store cam false del = store := by
  unfold consolidateCameraStep
  by_cases hf : globFrames store cam = [] <;> simp [hf]

/-- Skipped updated step: a failed createVideo leaves the store as-is. -/
theorem consolidateCameraStepUpdated_encFalse (cfg : PConfig) (now : String)
    (store : List FrameFile) (cam : String) :
    consolidateCameraStepUpdated cfg now store cam false = store := by
  unfold consolidateCameraStepUpdated
  by_cases hf : (globFrames store cam).length < cfg.maxFrames <;> simp [hf]

/-- The whole internal pass is a filter: an entry is removed exactly when its
camera is active, its name matches the glob, that camera's encoding
succeeded, and DeleteOriginals is set. Modification times are never
consulted. -/
theorem consolidateFrames_eq_filter (active : List String) (enc : String → Bool) (del : Bool)
    (store : List FrameFile) :
    consolidateFrames active enc del store =
      store.filter (fun e =>
        !(active.contains e.camera && matchesFramePattern e.name && enc e.camera && del)) := by
  induction active generalizing store with
  | nil =>
    show store = _
    symm
    apply List.filter_eq_self.mpr
    intro e _
    simp
  | cons a as ih =>
    show consolidateFrames as enc del (consolidateCameraStep store a (enc a) del) = _
    rw [ih, consolidateCameraStep_eq_filter, List.filter_filter]
    apply List.filter_congr
    intro e he
    by_cases hc : e.camera = a
    · rw [hc, List.contains_cons]
      cases as.contains a <;> cases matchesFramePattern e.name <;> cases enc a <;> cases del <;>
        simp
    · have hb : (e.camera == a) = false := beq_eq_false_iff_ne.mpr hc
      rw [List.contains_cons, hb]
      cases as.contains e.camera <;> cases matchesFramePattern e.name <;>
        cases enc e.camera <;> cases del <;> simp

/-- A camera whose encoding fails contributes nothing to the internal pass:
the pass equals the pass over the active list with that camera erased. -/
theorem consolidateFrames_erase {c : String} {enc : String → Bool} (hc : enc c = false)
    (active : List String) (del : Bool) (store : List FrameFile) :
    consolidateFrames active enc del store = consolidateFrames (active.erase c) enc del store := by
  induction active generalizing store with
  | nil => rfl
  | cons a as ih =>
    by_cases ha : a = c
    · subst ha
      rw [List.erase_cons_head]
      show consolidateFrames as enc del (consolidateCameraStep store a (enc a) del) = _
      rw [hc, consolidateCameraStep_encFalse]
    · rw [List.erase_cons_tail (by simpa using ha)]
      show consolidateFrames as enc del (consolidateCameraStep store a (enc a) del) = _
      exact ih _

/-- Same statement for the updated pass. -/
theorem consolidateFramesUpdated_erase {c : String} {enc : String → Bool} (hc : enc c = false)
    (cfg : PConfig) (now : String) (active : List String) (store : List FrameFile) :
    consolidateFramesUpdated cfg now active enc store =
      consolidateFramesUpdated cfg now (active.erase c) enc store := by
  induction active generalizing store with
  | nil => rfl
  | cons a as ih =>
    by_cases ha : a = c
    · subst ha
      rw [List.erase_cons_head]
      show consolidateFramesUpdated cfg now as enc
        (consolidateCameraStepUpdated cfg now store a (enc a)) = _
      rw [hc, consolidateCameraStepUpdated_encFalse]
    · rw [List.erase_cons_tail (by simpa using ha)]
      show consolidateFramesUpdated cfg now as enc
        (consolidateCameraStepUpdated cfg now store a (enc a)) = _
      exact ih _

/-- A filter-then-map store transformation that keeps every entry of foreign
cameras and maps them to themselves leaves any other camera's file set
untouched. -/
theorem filter_camera_of_local (store : List FrameFile) (p : FrameFile → Bool)
    (f : FrameFile → FrameFile) (d cam : String) (hne : d ≠ cam)
    (hp : ∀ e, e.camera ≠ cam → p e = true)
    (hf : ∀ e, e.camera ≠ cam → f e = e)
    (hfc : ∀ e, (f e).camera = e.camera) :
    ((store.filter p).map f).filter (fun e => e.camera == d) =
      store.filter (fun e => e.camera == d) := by
  induction store with
  | nil => rfl
  | cons a as ih =>
    by_cases hca : a.camera = cam
    · have h1 : (a.camera == d) = false := by
        rw [hca]
        exact beq_eq_false_iff_ne.mpr (fun h => hne h.symm)
      by_cases hpa : p a = true
      · have h2 : ((f a).camera == d) = false := by
          rw [hfc a, hca]
          exact beq_eq_false_iff_ne.mpr (fun h => hne h.symm)
        simp only [List.filter_cons, hpa, if_pos rfl, List.map_cons, h1, h2]
        simpa [h2, h1] using ih
      · have hpa2 : p a = false := by
          cases h : p a
          · rfl
          · exact absurd h hpa
        simp only [List.filter_cons, hpa2, h1]
        simpa [h1] using ih
    · have hpa := hp a hca
      have hfa := hf a hca
      cases h : (a.camera == d)
      · simp [List.filter_cons, hpa, hfa, h, ih]
      · simp [List.filter_cons, hpa, hfa, h, ih]

/-- One updated per-camera step never touches another camera's files. -/
theorem filterCam_stepUpdated {d cam : String} (hne : d ≠ cam) (cfg : PConfig) (now : String)
    (store : List FrameFile) (encOk : Bool) :
    (consolidateCameraStepUpdated cfg now store cam encOk).filter (fun e => e.camera == d) =
      store.filter (fun e => e.camera == d) := by
  unfold consolidateCameraStepUpdated
  by_cases h1 : (globFrames store cam).length < cfg.maxFrames
  · simp [h1]
  · rw [if_neg h1]
    cases encOk with
    | false => rfl
    | true =>
      cases hdel : cfg.deleteOriginals with
      | false => simp [hdel]
      | true =>
        simp only [Bool.not_true, Bool.false_eq_true, if_false, hdel, if_true]
        apply filter_camera_of_local store _ _ d cam hne
        · intro e he
          have hb : (e.camera == cam) = false := beq_eq_false_iff_ne.mpr he
          simp [hb]
        · intro e he
          have hb : (e.camera == cam) = false := beq_eq_false_iff_ne.mpr he
          simp [hb]
        · intro e
          by_cases hb : e.camera = cam
          · have hbb : (e.camera == cam) = true := beq_iff_eq.mpr hb
            simp only [hbb, if_true]
            cases ((List.drop cfg.maxFrames (globFrames store cam)).enum.map
                (fun p => (p.2, renumberedName (p.1 + 1) now))).lookup e.name with
            | none => rfl
            | some nn => rfl
          · have hbb : (e.camera == cam) = false := beq_eq_false_iff_ne.mpr hb
            simp [hbb]

/-- Entries of a camera whose encoding fails survive the whole updated pass
unchanged; other cameras' steps never touch them. -/
theorem filterCam_passUpdated {c : String} {enc : String → Bool} (hc : enc c = false)
    (cfg : PConfig) (now : String) (active : List String) (store : List FrameFile) :
    (consolidateFramesUpdated cfg now active enc store).filter (fun e => e.camera == c) =
      store.filter (fun e => e.camera == c) := by
  induction active generalizing store with
  | nil => rfl
  | cons a as ih =>
    show (consolidateFramesUpdated cfg now as enc
      (consolidateCameraStepUpdated cfg now store a (enc a))).filter _ = _
    rw [ih]
    by_cases ha : a = c
    · subst ha
      rw [hc, consolidateCameraStepUpdated_encFalse]
    · exact filterCam_stepUpdated (fun h => ha h.symm) cfg now store (enc a)

/-- The logged pass scans every active camera, in range order. -/
theorem loggedScan_aux (active : List String) (enc : String → Bool) (del : Bool) :
    ∀ (st : List FrameFile) (acc : List (String × List String)),
      ((active.foldl
        (fun st cam =>
          (consolidateCameraStep st.1 cam (enc cam) del, st.2 ++ [(cam, globFrames st.1 cam)]))
        (st, acc)).2).map Prod.fst = acc.map Prod.fst ++ active := by
  induction active with
  | nil =>
    intro st acc
    simp
  | cons a as ih =>
    intro st acc
    show ((as.foldl _
      (consolidateCameraStep st a (enc a) del, acc ++ [(a, globFrames st a)])).2).map Prod.fst = _
    rw [ih]
    simp

/-- Specialization to `consolidateFramesLogged`. -/
theorem consolidateFramesLogged_scan (active : List String) (enc : String → Bool) (del : Bool)
    (store : List FrameFile) :
    (consolidateFramesLogged active enc del store).2.map Prod.fst = active := by
  have h := loggedScan_aux active enc del store []
  simpa [consolidateFramesLogged] using h

/-- Appending a fresh key does not disturb lookups of other keys. -/
theorem lookup_append_right_ne (counts : List (String × Nat)) (cam other : String) (v : Nat)
    (hne : other ≠ cam) : (counts ++ [(cam, v)]).lookup other = counts.lookup other := by
  induction counts with
  | nil => simp [List.lookup, beq_eq_false_iff_ne.mpr hne]
  | cons p rest ih =>
    obtain ⟨k, w⟩ := p
    cases hb : (other == k) <;> simp [List.lookup, hb, ih]

/-- Looking up a key just appended to a map that lacked it. -/
theorem lookup_append_one (counts : List (String × Nat)) (cam : String)
    (h : counts.lookup cam = none) : (counts ++ [(cam, 1)]).lookup cam = some 1 := by
  induction counts with
  | nil => simp [List.lookup]
  | cons p rest ih =>
    obtain ⟨k, v⟩ := p
    cases hb : (cam == k) with
    | true =>
      exfalso
      simp [List.lookup, hb] at h
    | false =>
      simp only [List.lookup, hb] at h
      simp only [List.cons_append, List.lookup, hb]
      exact ih h

/-- The in-place bump writes the incremented value at the bumped key. -/
theorem lookup_map_bump_self (counts : List (String × Nat)) (cam : String) (n : Nat)
    (h : counts.lookup cam = some n) :
    (counts.map (fun p => if p.1 = cam then (p.1, n + 1) else p)).lookup cam = some (n + 1) := by
  induction counts with
  | nil => simp [List.lookup] at h
  | cons p rest ih =>
    obtain ⟨k, v⟩ := p
    by_cases hk : k = cam
    · subst hk
      have hhead : (if (k, v).1 = k then ((k, v).1, n + 1) else (k, v)) = (k, n + 1) := by simp
      rw [List.map_cons, hhead]
      simp [List.lookup]
    · have hb : (cam == k) = false := beq_eq_false_iff_ne.mpr (fun hh => hk hh.symm)
      simp only [List.lookup, hb] at h
      have hhead : (if (k, v).1 = cam then ((k, v).1, n + 1) else (k, v)) = (k, v) := by
        simp [hk]
      rw [List.map_cons, hhead]
      simp only [List.lookup, hb]
      exact ih h

/-- The in-place bump leaves every other key's value alone. -/
theorem lookup_map_bump_ne (counts : List (String × Nat)) (cam other : String) (n : Nat)
    (hne : other ≠ cam) :
    (counts.map (fun p => if p.1 = cam then (p.1, n + 1) else p)).lookup other =
      counts.lookup other := by
  induction counts with
  | nil => rfl
  | cons p rest ih =>
    obtain ⟨k, v⟩ := p
    by_cases hk : k = cam
    · subst hk
      have hbo : (other == k) = false := beq_eq_false_iff_ne.mpr hne
      have hhead : (if (k, v).1 = k then ((k, v).1, n + 1) else (k, v)) = (k, n + 1) := by simp
      rw [List.map_cons, hhead]
      simp only [List.lookup, hbo]
      exact ih
    · have hhead : (if (k, v).1 = cam then ((k, v).1, n + 1) else (k, v)) = (k, v) := by
        simp [hk]
      rw [List.map_cons, hhead]
      cases hbo : (other == k) with
      | true => simp only [List.lookup, hbo]
      | false =>
        simp only [List.lookup, hbo]
        exact ih

/-- Bumping a camera's counter increments exactly that counter. -/
theorem getCount_bumpCount_self (counts : List (String × Nat)) (cam : String) :
    getCount (bumpCount counts cam) cam = getCount counts cam + 1 := by
  unfold getCount bumpCount
  cases h : counts.lookup cam with
  | none => rw [lookup_append_one counts cam h]
  | some n => rw [lookup_map_bump_self counts cam n h]

/-- Bumping a camera's counter leaves other cameras' counters alone. -/
theorem getCount_bumpCount_ne (counts : List (String × Nat)) (cam other : String)
    (hne : other ≠ cam) : getCount (bumpCount counts cam) other = getCount counts other := by
  unfold getCount bumpCount
  cases h : counts.lookup cam with
  | none => rw [lookup_append_right_ne counts cam other 1 hne]
  | some n => rw [lookup_map_bump_ne counts cam other n hne]

/-! ## Claim theorems -/

/-- Claim C1, counterexample: in the internal iteration the encoder input for
a camera is the glob result in lexicographic order, with no numeric sort. For
the two frame files of camera cam1 whose sequence fields have different digit
widths (99999 and 100000), the encoder input lists the frame with the larger
parsed sequence number first (100000 before 99999, because the string
comparison decides on the seventh character, 1 before 9), so the frames are
not ordered by the numeric sequence parsed from each filename: the claim is
false of this consolidation pass. -/
theorem claim_C1_counterexample :
    consolidateEncoderInput
        [⟨"cam1", "frame_100000_20240101.jpg", 5⟩, ⟨"cam1", "frame_99999_20240101.jpg", 5⟩]
        "cam1" =
      ["frame_100000_20240101.jpg", "frame_99999_20240101.jpg"] ∧
    extractFrameNumber "frame_100000_20240101.jpg" = 100000 ∧
    extractFrameNumber "frame_99999_20240101.jpg" = 99999 ∧
    ¬ frameNumOrder "frame_100000_20240101.jpg" "frame_99999_20240101.jpg" := by
  refine ⟨by decide, by decide, by decide, by decide⟩

/-- Claim C1, amended: in the updated iteration (the one defining
extractFrameNumber), createVideo sorts its chunk by the numeric sequence
parsed from each filename before the playlist is written, so within one
encoder invocation a frame with a smaller parsed integer always precedes one
with a larger parsed integer, regardless of digit width; the sorted chunk is
a permutation of the frames handed over. In the internal iteration the
encoder receives the lexicographic glob order (see the counterexample). -/
theorem claim_C1_amended :
    (∀ frames : List String,
      List.Sorted frameNumOrder (createVideoSort frames) ∧
        (createVideoSort frames).Perm frames) ∧
    (∀ store cam maxFrames,
      List.Sorted frameNumOrder (consolidateEncoderInputUpdated store cam maxFrames) ∧
        (consolidateEncoderInputUpdated store cam maxFrames).Perm
          ((globFrames store cam).take maxFrames)) := by
  constructor
  · intro frames
    exact ⟨List.sorted_insertionSort frameNumOrder frames,
      List.perm_insertionSort frameNumOrder frames⟩
  · intro store cam maxFrames
    exact ⟨List.sorted_insertionSort frameNumOrder _,
      List.perm_insertionSort frameNumOrder _⟩

/-- Claim C5, counterexample: the internal iteration's createVideo returns
the ffmpeg error whenever the encoder process exits with an error, without
consulting the output artifact: with an encoder error and an existing
artifact of size 1, the claim demands success but the invocation reports
failure, so "success iff the output exists with non-zero size" is false of
the internal iteration. -/
theorem claim_C5_counterexample :
    ¬ ((createVideoVerify true (some 1) = true) ↔
        ((some 1 : Option Nat).isSome = true ∧ 0 < (some 1 : Option Nat).getD 0)) := by
  decide

/-- Claim C5, amended: the claim as stated holds of the updated iteration's
createVideo — its invocation reports success exactly when the output
artifact exists with non-zero size, also when the encoder process exited
with an error (lenient-success). The internal iteration's createVideo is
stricter: it reports success exactly when the encoder exited cleanly AND the
artifact exists with non-zero size, treating any encoder error as a chunk
failure even when a usable artifact exists. -/
theorem claim_C5_amended :
    (∀ (runErr : Bool) (outSize : Option Nat),
      createVideoVerifyUpdated runErr outSize = true ↔ ∃ n, outSize = some n ∧ 0 < n) ∧
    (∀ (runErr : Bool) (outSize : Option Nat),
      createVideoVerify runErr outSize = true ↔
        (runErr = false ∧ ∃ n, outSize = some n ∧ 0 < n)) := by
  constructor
  · intro runErr outSize
    cases runErr <;> cases outSize <;> simp [createVideoVerifyUpdated]
  · intro runErr outSize
    cases runErr <;> cases outSize <;> simp [createVideoVerify]

/-- Claim C2, counterexample: a submission with camera id cam1, an EMPTY
payload, and a far-from-full queue (capacity 100, empty) is accepted by
ProcessFrame — the result carries no error although the claim's right-hand
side holds (the payload is empty), so "error iff empty id, empty payload, or
full queue" is false: ProcessFrame never checks the payload. -/
theorem claim_C2_counterexample :
    ¬ (((ProcessFrame ⟨[], [], 100⟩ ⟨"cam1", [], 7, 1⟩).1 ≠ none) ↔
        ((⟨"cam1", [], 7, 1⟩ : FrameData).cameraID = "" ∨
          (⟨"cam1", [], 7, 1⟩ : FrameData).data = [] ∨
          (100 : Nat) ≤ ([] : List FrameData).length)) := by
  decide

/-- Claim C2, amended: ProcessFrame returns an error synchronously if and
only if the camera id is empty or the bounded queue is already full (the
payload is never inspected at submission; an empty payload is enqueued and
can only fail later, asynchronously, in the persistence worker). On a full
queue it fails immediately, leaving the queue unchanged; on success the
frame is appended to the queue and nothing else is reported. -/
theorem claim_C2_amended (st : IngestState) (f : FrameData) :
    (((ProcessFrame st f).1 ≠ none) ↔ (f.cameraID = "" ∨ st.cap ≤ st.queue.length)) ∧
    ((ProcessFrame st f).2.queue =
      if f.cameraID = "" then st.queue
      else if st.queue.length < st.cap then st.queue ++ [f] else st.queue) := by
  unfold ProcessFrame
  by_cases hid : f.cameraID = ""
  · simp [hid]
  · by_cases hlt : st.queue.length < st.cap
    · simp [hid, hlt, Nat.not_le.mpr hlt]
    · simp [hid, hlt, Nat.le_of_not_lt (by simpa using hlt)]

/-- Normal form of a successful worker step. -/
theorem processFramesStep_true (st : WorkerState) (cam : String) :
    processFramesStep st cam true =
      { counts := bumpCount st.counts cam,
        pending := st.pending ||
          (getCount (bumpCount st.counts cam) cam % consolidationBatchThreshold == 0) } := by
  unfold processFramesStep
  cases hmod : ((getCount (bumpCount st.counts cam) cam) % consolidationBatchThreshold == 0) with
  | true => cases hp : st.pending <;> simp [hmod, hp]
  | false => simp [hmod]

/-- Claim C4: after every successfully persisted frame the worker bumps that
camera's counter (a failed save changes nothing); exactly when the new count
is a multiple of the threshold 30 it attempts a non-blocking send on the
capacity-1 consolidation channel, so the pending flag becomes the old flag
OR the trigger condition — an already-pending signal drops the send without
any error and the worker continues; other cameras' counters are untouched.
The threshold is the literal 30 of the source (the default; no configuration
field feeds it). -/
theorem claim_C4 (st : WorkerState) (cam : String) :
    (processFramesStep st cam false = st) ∧
    (getCount (processFramesStep st cam true).counts cam = getCount st.counts cam + 1) ∧
    (∀ other, other ≠ cam →
      getCount (processFramesStep st cam true).counts other = getCount st.counts other) ∧
    ((processFramesStep st cam true).pending =
      (st.pending ||
        ((getCount st.counts cam + 1) % consolidationBatchThreshold == 0))) ∧
    consolidateChanCapacity = 1 := by
  refine ⟨rfl, ?_, ?_, ?_, rfl⟩
  · rw [processFramesStep_true]
    exact getCount_bumpCount_self st.counts cam
  · intro other hne
    rw [processFramesStep_true]
    exact getCount_bumpCount_ne st.counts cam other hne
  · rw [processFramesStep_true]
    rw [getCount_bumpCount_self]

/-- Separator normalization leaves no backslash in a path. -/
theorem toSlashChars_no_backslash (cs : List Char) : ¬ '\\' ∈ toSlashChars cs := by
  intro hmem
  rw [toSlashChars, List.mem_map] at hmem
  obtain ⟨c, _, hc⟩ := hmem
  by_cases h : c = '\\'
  · rw [h] at hc
    simp at hc
  · have hb : (c == '\\') = false := beq_eq_false_iff_ne.mpr h
    rw [hb] at hc
    simp at hc
    exact h hc

/-- Collapsing one escape group. -/
theorem unescapeQuotes_group (ts : List Char) :
    unescapeQuotes ('\'' :: '\\' :: '\'' :: '\'' :: ts) = '\'' :: unescapeQuotes ts := by
  conv_lhs => unfold unescapeQuotes
  simp

/-- Unescaping walks over a non-quote head. -/
theorem unescapeQuotes_cons_ne (c : Char) (ts : List Char) (h : c ≠ '\'') :
    unescapeQuotes (c :: ts) = c :: unescapeQuotes ts := by
  conv_lhs => unfold unescapeQuotes
  rw [if_neg h]

/-- Quote escaping is lossless: collapsing the escape groups recovers the
original path. -/
theorem unescape_escape (cs : List Char) : unescapeQuotes (escapeQuotes cs) = cs := by
  induction cs with
  | nil =>
    show unescapeQuotes [] = []
    unfold unescapeQuotes
    rfl
  | cons c rest ih =>
    by_cases hc : c = '\''
    · subst hc
      have hesc : escapeQuotes ('\'' :: rest)
          = '\'' :: '\\' :: '\'' :: '\'' :: escapeQuotes rest := by
        simp [escapeQuotes]
      rw [hesc, unescapeQuotes_group, ih]
    · have hesc : escapeQuotes (c :: rest) = c :: escapeQuotes rest := by
        simp [escapeQuotes, hc]
      rw [hesc, unescapeQuotes_cons_ne c _ hc, ih]

/-- Claim C9, counterexample: for the one-frame chunk whose path contains a
quote (the characters a, quote, b), the internal iteration's playlist has
exactly one file entry — the final frame's entry is NOT appended once more —
and that entry still carries the bare, unescaped quote; so both the
"final frame appended once more" part and the "quote characters escaped"
part of the claim fail for this encoder invocation. (Its duration literal is
also 0.033333333, not the 0.0333333333 of the updated iteration.) -/
theorem claim_C9_counterexample :
    ((playlistInternal [['a', '\'', 'b']]).countP isFileRef = 1) ∧
    (PlaylistLine.fileRef ['a', '\'', 'b'] ∈ playlistInternal [['a', '\'', 'b']]) ∧
    ((playlistUpdated [['a', '\'', 'b']]).countP isFileRef = 2) := by
  decide

/-- Claim C9, amended: the claim holds of the updated iteration's createVideo
playlist: for every non-empty chunk it is, in chunk order, one file entry per
frame each followed by a duration line (literal 0.0333333333, the 30 fps
frame duration), with the final frame's file entry appended once more at the
end; paths are separator-normalized (no backslash survives) and
quote-escaped losslessly. The internal iteration's playlist (see the
counterexample) duplicates no final entry and escapes no quotes. -/
theorem claim_C9_amended (frames : List (List Char)) (h : frames ≠ []) :
    (playlistUpdated frames =
      (frames.flatMap (fun f =>
        [PlaylistLine.fileRef (ffmpegSafePath f), PlaylistLine.duration "0.0333333333"])) ++
      [PlaylistLine.fileRef (ffmpegSafePath (frames.getLast h))]) ∧
    (∀ cs, ¬ '\\' ∈ toSlashChars cs) ∧
    (∀ cs, unescapeQuotes (escapeQuotes cs) = cs) := by
  refine ⟨?_, toSlashChars_no_backslash, unescape_escape⟩
  unfold playlistUpdated
  rw [List.getLast?_eq_getLast_of_ne_nil h]

/-- Claim C9, witness: the amended playlist shape evaluated on the singleton
chunk containing the path a. -/
theorem claim_C9_witness :
    playlistUpdated [['a']] =
      [PlaylistLine.fileRef ['a'], PlaylistLine.duration "0.0333333333",
        PlaylistLine.fileRef ['a']] := by
  have h := (claim_C9_amended [['a']] (by decide)).1
  simpa [ffmpegSafePath, escapeQuotes, toSlashChars] using h

/-- Every camera set is contained in its insertCam extension. -/
theorem subset_insertCam (cam : String) (ac : List String) : ac ⊆ insertCam cam ac := by
  unfold insertCam
  by_cases h : cam ∈ ac
  · rw [if_pos h]
    exact fun x hx => hx
  · rw [if_neg h]
    exact List.subset_append_left _ _

/-- insertCam really records the camera. -/
theorem mem_insertCam (cam : String) (ac : List String) : cam ∈ insertCam cam ac := by
  unfold insertCam
  by_cases h : cam ∈ ac
  · rwa [if_pos h]
  · rw [if_neg h]
    simp

/-- Claim C10: ProcessFrame stores the camera in the shared active map before
the capacity check, so a queue-full rejection (non-empty camera id, full
queue: the submission errors) still registers the camera; no operation ever
removes a camera from the map (ProcessFrame can only extend it); and every
consolidation pass scans exactly the active cameras, so the rejected
camera's directory is globbed by every subsequent pass. -/
theorem claim_C10 (st : IngestState) (f : FrameData) (enc : String → Bool) (del : Bool)
    (store : List FrameFile)
    (hid : f.cameraID ≠ "") (hfull : st.cap ≤ st.queue.length) :
    ((ProcessFrame st f).1 ≠ none) ∧
    (f.cameraID ∈ (ProcessFrame st f).2.active) ∧
    (∀ (st2 : IngestState) (g : FrameData), st2.active ⊆ (ProcessFrame st2 g).2.active) ∧
    ((consolidateFramesLogged ((ProcessFrame st f).2.active) enc del store).2.map Prod.fst =
        (ProcessFrame st f).2.active) ∧
    (f.cameraID ∈
      (consolidateFramesLogged ((ProcessFrame st f).2.active) enc del store).2.map
        Prod.fst) := by
  have hproc : (ProcessFrame st f).2.active = insertCam f.cameraID st.active := by
    unfold ProcessFrame
    rw [if_neg hid]
    by_cases hlt : st.queue.length < st.cap
    · simp [hlt]
    · simp [hlt]
  refine ⟨?_, ?_, ?_, ?_, ?_⟩
  · unfold ProcessFrame
    rw [if_neg hid, if_neg (by simpa using Nat.not_lt.mpr hfull)]
    simp
  · rw [hproc]
    exact mem_insertCam _ _
  · intro st2 g
    unfold ProcessFrame
    by_cases h2 : g.cameraID = ""
    · rw [if_pos h2]
      exact fun x hx => hx
    · rw [if_neg h2]
      by_cases hlt : st2.queue.length < st2.cap
      · simpa [hlt] using subset_insertCam g.cameraID st2.active
      · simpa [hlt] using subset_insertCam g.cameraID st2.active
  · exact consolidateFramesLogged_scan _ enc del store
  · rw [consolidateFramesLogged_scan, hproc]
    exact mem_insertCam _ _

/-- Claim C10, witness: a queue-full rejection (capacity 1, one frame queued)
for camera cam1 still lands cam1 in the scan list of the next pass. -/
theorem claim_C10_witness :
    "cam1" ∈ (consolidateFramesLogged
        ((ProcessFrame ⟨[], [⟨"camA", [1], 0, 1⟩], 1⟩ ⟨"cam1", [2], 3, 4⟩).2.active)
        (fun _ => true) false []).2.map Prod.fst :=
  (claim_C10 ⟨[], [⟨"camA", [1], 0, 1⟩], 1⟩ ⟨"cam1", [2], 3, 4⟩ (fun _ => true) false []
    (by decide) (by decide)).2.2.2.2

/-- Filtering by a predicate blind to the mapped fields commutes with the
map. -/
theorem filter_map_comm (store : List FrameFile) (p : FrameFile → Bool)
    (g : FrameFile → FrameFile) (hpg : ∀ e, p (g e) = p e) :
    (store.map g).filter p = (store.filter p).map g := by
  induction store with
  | nil => rfl
  | cons a as ih =>
    cases h : p a
    · simp [List.filter_cons, hpg, h, ih]
    · simp [List.filter_cons, hpg, h, ih]

/-- Claim C3, counterexample: the program has no retention sweep — the only
recurring pass over the frame store is consolidateFrames (RetentionTime is
carried in ProcessorConfig, logged at startup, and never read again). Take
now = 1000000 and the configured 24-hour window (86400 seconds). A frame of
camera cam1 last modified at time 0 is long past now minus the window, yet a
pass under the configuration the server deploys (DeleteOriginals = false, as
server.go passes) leaves it exactly in place; and under DeleteOriginals =
true a pass deletes a frame modified at 999999 — well inside the window —
so no pass of the program performs the claimed age-based deletion in either
configuration. -/
theorem claim_C3_counterexample :
    ((⟨"cam1", "frame_00001_a.jpg", 0⟩ : FrameFile).mtime + 86400 < 1000000) ∧
    (consolidateFrames ["cam1"] (fun _ => true) false
        [⟨"cam1", "frame_00001_a.jpg", 0⟩] = [⟨"cam1", "frame_00001_a.jpg", 0⟩]) ∧
    (1000000 - 86400 < (⟨"cam1", "frame_00002_b.jpg", 999999⟩ : FrameFile).mtime) ∧
    (consolidateFrames ["cam1"] (fun _ => true) true
        [⟨"cam1", "frame_00002_b.jpg", 999999⟩] = []) := by
  decide

/-- Claim C3, amended: no retention sweep exists; the retention window is an
unused configuration field. The only pass over the frame store deletes
nothing at all when DeleteOriginals is off (the server's deployed
configuration); when it is on, it deletes exactly the consumed
(pattern-matching, active, successfully encoded) frames, by name only; and
the pass commutes with any reassignment of modification times, so no
deletion or survival ever depends on a file's age. -/
theorem claim_C3_amended :
    (∀ (active : List String) (enc : String → Bool) (store : List FrameFile),
      consolidateFrames active enc false store = store) ∧
    (∀ (active : List String) (enc : String → Bool) (store : List FrameFile),
      consolidateFrames active enc true store =
        store.filter (fun e =>
          !(active.contains e.camera && matchesFramePattern e.name && enc e.camera))) ∧
    (∀ (active : List String) (enc : String → Bool) (del : Bool) (store : List FrameFile)
        (retime : String → String → Nat),
      consolidateFrames active enc del
          (store.map (fun e => { e with mtime := retime e.camera e.name })) =
        (consolidateFrames active enc del store).map
          (fun e => { e with mtime := retime e.camera e.name })) := by
  refine ⟨?_, ?_, ?_⟩
  · intro active enc store
    rw [consolidateFrames_eq_filter]
    apply List.filter_eq_self.mpr
    intro e _
    simp
  · intro active enc store
    rw [consolidateFrames_eq_filter]
    apply List.filter_congr
    intro e _
    simp
  · intro active enc del store retime
    rw [consolidateFrames_eq_filter, consolidateFrames_eq_filter]
    exact filter_map_comm store _ _ (fun e => rfl)

/-- Claim C6: when createVideo fails for one camera in a pass (enc c =
false), that camera's files survive the pass untouched — in both iterations
— and the pass is the same pass it would have been without that camera at
all, so every other active camera is still scanned and consolidated
according to its own outcome. -/
theorem claim_C6 (active : List String) (enc : String → Bool) (del : Bool)
    (store : List FrameFile) (cfg : PConfig) (now : String) (c : String)
    (hc : enc c = false) :
    ((consolidateFrames active enc del store).filter (fun e => e.camera == c) =
        store.filter (fun e => e.camera == c)) ∧
    (consolidateFrames active enc del store =
        consolidateFrames (active.erase c) enc del store) ∧
    ((consolidateFramesUpdated cfg now active enc store).filter (fun e => e.camera == c) =
        store.filter (fun e => e.camera == c)) ∧
    (consolidateFramesUpdated cfg now active enc store =
        consolidateFramesUpdated cfg now (active.erase c) enc store) := by
  refine ⟨?_, consolidateFrames_erase hc active del store,
    filterCam_passUpdated hc cfg now active store,
    consolidateFramesUpdated_erase hc cfg now active store⟩
  rw [consolidateFrames_eq_filter, List.filter_filter]
  apply List.filter_congr
  intro e he
  by_cases hec : e.camera = c
  · have hb : (e.camera == c) = true := beq_iff_eq.mpr hec
    simp [hec, hc, hb]
  · have hb : (e.camera == c) = false := beq_eq_false_iff_ne.mpr hec
    simp [hb]

/-- Claim C6, witness: with camA's encoder invocation failing and camB's
succeeding (DeleteOriginals on), camA's frame files are exactly what they
were before the pass. -/
theorem claim_C6_witness :
    (consolidateFrames ["camA", "camB"] (fun s => s == "camB") true
        [⟨"camA", "frame_00001_x.jpg", 0⟩, ⟨"camB", "frame_00002_y.jpg", 0⟩]).filter
        (fun e => e.camera == "camA") =
      [(⟨"camA", "frame_00001_x.jpg", 0⟩ : FrameFile),
        ⟨"camB", "frame_00002_y.jpg", 0⟩].filter (fun e => e.camera == "camA") :=
  (claim_C6 ["camA", "camB"] (fun s => s == "camB") true
      [⟨"camA", "frame_00001_x.jpg", 0⟩, ⟨"camB", "frame_00002_y.jpg", 0⟩]
      ⟨1, true⟩ "t" "camA" (by decide)).1

/-- Claim C7: Server.Stop is idempotent. From any lifecycle state whose
resources are consistent with its once-flag, one Stop call succeeds (closing
shutdown, the ingestion queue channel, and the consolidation signal channel
exactly once, via the processor's Stop), and a second call is a no-op that
neither panics nor re-closes anything. -/
theorem claim_C7 (st : LifecycleState)
    (hwf : st.stopped = false →
      st.shutdownClosed = false ∧ st.frameClosed = false ∧ st.consClosed = false) :
    ∃ st2, serverStop st = Except.ok st2 ∧ st2.stopped = true ∧
      serverStop st2 = Except.ok st2 := by
  obtain ⟨s0, s1, s2, s3⟩ := st
  cases s0 with
  | true => exact ⟨⟨true, s1, s2, s3⟩, rfl, rfl, rfl⟩
  | false =>
    obtain ⟨h1, h2, h3⟩ := hwf rfl
    dsimp only at h1 h2 h3
    subst h1
    subst h2
    subst h3
    exact ⟨⟨true, true, true, true⟩, rfl, rfl, rfl⟩

/-- Claim C7, witness: two successive Stop calls from the running state. -/
theorem claim_C7_witness :
    ∃ st2, serverStop ⟨false, false, false, false⟩ = Except.ok st2 ∧ st2.stopped = true ∧
      serverStop st2 = Except.ok st2 :=
  claim_C7 ⟨false, false, false, false⟩ (by decide)

/-- Claim C8, counterexample: the internal iteration's Stop runs no
consolidation pass at all. With one frame still queued and nothing persisted,
Stop closes both channels (releasing the ingestion queue) while the store
stays empty and the queued frame stays unpersisted and unconsolidated — the
claimed final forced pass does not happen and the queued frame is lost. -/
theorem claim_C8_counterexample :
    ((stopInternal ⟨[⟨"cam1", [7], 0, 1⟩], [], ["cam1"], false, false⟩).frameClosed = true) ∧
    ((stopInternal ⟨[⟨"cam1", [7], 0, 1⟩], [], ["cam1"], false, false⟩).consClosed = true) ∧
    ((stopInternal ⟨[⟨"cam1", [7], 0, 1⟩], [], ["cam1"], false, false⟩).queue
        = [⟨"cam1", [7], 0, 1⟩]) ∧
    ((stopInternal ⟨[⟨"cam1", [7], 0, 1⟩], [], ["cam1"], false, false⟩).store = []) := by
  exact ⟨rfl, rfl, rfl, rfl⟩

/-- Claim C8, amended: the internal iteration's Stop closes the two channels
and runs no pass (store and queue unchanged). The updated iteration's Stop
does run one final consolidateFrames pass before the channels are closed,
but that pass covers only frames already persisted to the store — the
ingestion queue is not drained by it (its contents are untouched) — and it
applies the ordinary MaxFrames minimum, so a camera holding fewer than
MaxFrames persisted frames is not flushed even at shutdown. -/
theorem claim_C8_amended (cfg : PConfig) (now : String) (enc : String → Bool) (p : ProcFull)
    (cam : String) (store2 : List FrameFile)
    (hlt : (globFrames store2 cam).length < cfg.maxFrames) :
    ((stopUpdated cfg now enc p).store =
        consolidateFramesUpdated cfg now p.active enc p.store) ∧
    ((stopUpdated cfg now enc p).queue = p.queue) ∧
    ((stopUpdated cfg now enc p).frameClosed = true ∧
      (stopUpdated cfg now enc p).consClosed = true) ∧
    ((stopInternal p).store = p.store ∧ (stopInternal p).queue = p.queue ∧
      (stopInternal p).frameClosed = true ∧ (stopInternal p).consClosed = true) ∧
    (consolidateFramesUpdated cfg now [cam] enc store2 = store2) := by
  refine ⟨rfl, rfl, ⟨rfl, rfl⟩, ⟨rfl, rfl, rfl, rfl⟩, ?_⟩
  show consolidateCameraStepUpdated cfg now store2 cam (enc cam) = store2
  unfold consolidateCameraStepUpdated
  rw [if_pos hlt]

/-- Claim C8, witness: the final updated-iteration pass at shutdown leaves a
below-threshold store untouched. -/
theorem claim_C8_witness :
    consolidateFramesUpdated ⟨30, true⟩ "t" ["cam1"] (fun _ => true) [] = [] :=
  (claim_C8_amended ⟨30, true⟩ "t" (fun _ => true) ⟨[], [], [], false, false⟩ "cam1" []
    (by decide)).2.2.2.2

/-- Claim C4, witness: a successful save for camA leaves camB's counter
where it was. -/
theorem claim_C4_witness :
    getCount (processFramesStep ⟨[("camA", 3)], false⟩ "camA" true).counts "camB" =
      getCount [("camA", 3)] "camB" :=
  (claim_C4 ⟨[("camA", 3)], false⟩ "camA").2.2.1 "camB" (by decide)
